import Mathlib

/-!
Verification of the pdfunlocker worker protocol.

The embedding follows two source files:
* `src/workers/mupdf.worker.ts` (the worker: `self.onmessage`, `tryAutoUnlock`,
  `decryptPDF`), with the mupdf library modelled as an abstract interface of
  per-document observations (`needsPassword`, `authenticatePassword`, `asPDF`,
  `saveToBuffer`);
* `src/hooks/useMupdfWorker.ts` (the hook: the pending-resolver map, the id
  counter, the ready flag, the message queue, `sendMessage`, `worker.onmessage`,
  `worker.onerror`, `autoUnlock`, `decrypt`).

Bytes are `List Nat`; a JS `Map<number, resolver>` is an association list with
unique keys; promise resolution is recorded in a `resolved` log pairing each
request's resolver tag with the `DecryptResult` it received.
-/

/-- A thrown JS value: either an `Error` with a message, or any other value. -/
inductive Thrown where
  | err (msg : String)
  | nonError
deriving DecidableEq

/-- `error instanceof Error ? error.message : "Unknown error"` from the worker. -/
def Thrown.message : Thrown → String
  | .err m => m
  | .nonError => "Unknown error"

/-- Abstract mupdf document: the observations the worker code makes of a
`mupdf.Document` value. `auth` is `authenticatePassword`, `asPDF` records
whether `doc.asPDF()` returns non-null, `save` is
`pdfDoc.saveToBuffer(opts).asUint8Array()` as bytes. -/
structure Doc where
  needsPassword : Bool
  auth : String → Int
  asPDF : Bool
  save : String → List Nat

/-- Abstract mupdf library: `Document.openDocument` may throw. -/
structure Lib where
  openDocument : List Nat → Except Thrown Doc

/-- `tryAutoUnlock` from the worker: returns decrypted bytes, or `none` when a
password is required (reported as "needs-password"); a throw anywhere is an
`Except.error` (here only `openDocument` throws). -/
def tryAutoUnlock (lib : Lib) (bytes : List Nat) : Except Thrown (Option (List Nat)) :=
  match lib.openDocument bytes with
  | .error t => .error t
  | .ok doc =>
    if !doc.needsPassword then
      if doc.asPDF then
        .ok (some (doc.save "decrypt,garbage=deduplicate,compress"))
      else
        .ok none
    else if doc.auth "" > 0 then
      if doc.asPDF then
        .ok (some (doc.save "decrypt,garbage=deduplicate,compress"))
      else
        .ok none
    else
      .ok none

/-- `decryptPDF` from the worker: authenticates the supplied password when the
document needs one, then re-serializes without encryption; `throw` is an
`Except.error` carrying `"Incorrect password"` or `"Not a valid PDF document"`. -/
def decryptPDF (lib : Lib) (bytes : List Nat) (password : String) : Except Thrown (List Nat) :=
  match lib.openDocument bytes with
  | .error t => .error t
  | .ok doc =>
    if doc.needsPassword ∧ doc.auth password = 0 then
      .error (Thrown.err "Incorrect password")
    else if !doc.asPDF then
      .error (Thrown.err "Not a valid PDF document")
    else
      .ok (doc.save "decrypt,garbage=deduplicate,compress")

/-- A request message received by the worker (`DecryptMessage | AutoUnlockMessage`). -/
inductive WMsg where
  | decrypt (id : Nat) (data : List Nat) (password : String)
  | autoUnlock (id : Nat) (data : List Nat)
deriving DecidableEq

/-- The `id` field of a worker request. -/
def WMsg.msgId : WMsg → Nat
  | .decrypt i _ _ => i
  | .autoUnlock i _ => i

/-- A response posted by the worker back to the main thread. -/
structure WResp where
  type : String
  id : Nat
  data : Option (List Nat)
  error : Option String
deriving DecidableEq

/-- `self.postMessage({ type: "success", id, data: result })`. -/
def successReply (i : Nat) (d : List Nat) : WResp :=
  { type := "success", id := i, data := some d, error := none }

/-- `self.postMessage({ type: "needs-password", id })`. -/
def needsPasswordReply (i : Nat) : WResp :=
  { type := "needs-password", id := i, data := none, error := none }

/-- `self.postMessage({ type: "error", id, error })`. -/
def errorReply (i : Nat) (msg : String) : WResp :=
  { type := "error", id := i, data := none, error := some msg }

/-- The worker's `self.onmessage` handler: the list of responses posted while
handling one request message. -/
def workerHandle (lib : Lib) (m : WMsg) : List WResp :=
  match m with
  | .autoUnlock i d =>
    match tryAutoUnlock lib d with
    | .ok (some r) => [successReply i r]
    | .ok none => [needsPasswordReply i]
    | .error t => [errorReply i t.message]
  | .decrypt i d pw =>
    match decryptPDF lib d pw with
    | .ok r => [successReply i r]
    | .error t => [errorReply i t.message]

/-! ## The hook (`useMupdfWorker`) -/

/-- The hook's `DecryptResult`. -/
structure DecryptResult where
  success : Bool
  needsPassword : Option Bool
  data : Option (List Nat)
  error : Option String
deriving DecidableEq

/-- A message posted by the hook to the worker (`password = none` for
auto-unlock requests). -/
structure OutMsg where
  type : String
  id : Nat
  data : List Nat
  password : Option String
deriving DecidableEq

/-- A message received by the hook from the worker (`event.data` destructured
as `{ type, id, data, error }`). -/
structure InMsg where
  type : String
  id : Nat
  data : List Nat
  error : String
deriving DecidableEq

/-- `pendingRef.current.get(id)`: JS `Map` lookup on an association list. -/
def mapGet : List (Nat × Nat) → Nat → Option Nat
  | [], _ => none
  | (k, v) :: rest, i => if k = i then some v else mapGet rest i

/-- `pendingRef.current.set(id, resolve)`: overwrite in place or append. -/
def mapSet : List (Nat × Nat) → Nat → Nat → List (Nat × Nat)
  | [], k, v => [(k, v)]
  | (k', v') :: rest, k, v =>
    if k' = k then (k, v) :: rest else (k', v') :: mapSet rest k v

/-- `pendingRef.current.delete(id)`: remove the entry with that key (keys are
unique in a JS `Map`). -/
def mapDelete : List (Nat × Nat) → Nat → List (Nat × Nat)
  | [], _ => []
  | (k', v') :: rest, k =>
    if k' = k then mapDelete rest k else (k', v') :: mapDelete rest k

/-- State of the hook. `pending` maps request id to the resolver's tag;
`posted` logs messages given to `worker.postMessage` in order; `resolved`
logs each promise resolution as (resolver tag, result). -/
structure HookState where
  pending : List (Nat × Nat)
  ready : Bool
  queue : List OutMsg
  nextId : Nat
  posted : List OutMsg
  resolved : List (Nat × DecryptResult)
deriving DecidableEq

/-- Hook state right after the effect runs. -/
def initState : HookState :=
  { pending := [], ready := false, queue := [], nextId := 0, posted := [], resolved := [] }

/-- `sendMessage`: post immediately when ready, otherwise enqueue. -/
def sendMessage (s : HookState) (m : OutMsg) : HookState :=
  if s.ready then { s with posted := s.posted ++ [m] }
  else { s with queue := s.queue ++ [m] }

/-- The `DecryptResult` the hook's `onmessage` builds from a non-ready reply. -/
def mkResult (type : String) (data : List Nat) (error : String) : DecryptResult :=
  if type = "success" then
    { success := true, needsPassword := none, data := some data, error := none }
  else if type = "needs-password" then
    { success := false, needsPassword := some true, data := none, error := none }
  else
    { success := false, needsPassword := none, data := none, error := some error }

/-- The hook's `worker.onmessage` handler. -/
def handleMessage (s : HookState) (m : InMsg) : HookState :=
  if m.type = "ready" then
    { s with ready := true, posted := s.posted ++ s.queue, queue := [] }
  else
    match mapGet s.pending m.id with
    | none => s
    | some tag =>
      { s with pending := mapDelete s.pending m.id,
               resolved := s.resolved ++ [(tag, mkResult m.type m.data m.error)] }

/-- The hook's `worker.onerror` handler: resolve everything pending with a
worker-error result, then clear the map. -/
def handleError (s : HookState) : HookState :=
  { s with pending := [],
           resolved := s.resolved ++ s.pending.map (fun p =>
             (p.2, { success := false, needsPassword := none, data := none,
                     error := some "Worker encountered an error" })) }

/-- `autoUnlock`: allocate an id by post-increment, register the resolver,
send the request. `tag` identifies this call's resolver. -/
def autoUnlockCall (s : HookState) (tag : Nat) (bytes : List Nat) : HookState :=
  let i := s.nextId
  let s1 := { s with nextId := i + 1, pending := mapSet s.pending i tag }
  sendMessage s1 { type := "auto-unlock", id := i, data := bytes, password := none }

/-- `decrypt`: allocate an id by post-increment, register the resolver, send
the request with the password. -/
def decryptCall (s : HookState) (tag : Nat) (bytes : List Nat) (password : String) : HookState :=
  let i := s.nextId
  let s1 := { s with nextId := i + 1, pending := mapSet s.pending i tag }
  sendMessage s1 { type := "decrypt", id := i, data := bytes, password := some password }

/-- One externally visible event at the hook boundary. -/
inductive HookEvent where
  | callAutoUnlock (tag : Nat) (bytes : List Nat)
  | callDecrypt (tag : Nat) (bytes : List Nat) (password : String)
  | recv (m : InMsg)
  | workerErr
deriving DecidableEq

/-- Transition of the hook on one event. -/
def step (s : HookState) : HookEvent → HookState
  | .callAutoUnlock tag bytes => autoUnlockCall s tag bytes
  | .callDecrypt tag bytes pw => decryptCall s tag bytes pw
  | .recv m => handleMessage s m
  | .workerErr => handleError s

/-- Run a sequence of events from the initial state. -/
def runEvents (es : List HookEvent) : HookState :=
  es.foldl step initState

/-- Send a list of messages through `sendMessage`, in order. -/
def sendAll (s : HookState) (ms : List OutMsg) : HookState :=
  ms.foldl sendMessage s

/-- Invariant of the pending map: every registered id is below the counter,
and no id is registered twice. -/
def PendingInv (s : HookState) : Prop :=
  (∀ p ∈ s.pending, p.1 < s.nextId) ∧ (s.pending.map Prod.fst).Nodup

/-! ## Concrete library models used by the witnesses -/

/-- An unencrypted document that converts to a PDF document. -/
def docPlain : Doc :=
  { needsPassword := false, auth := fun _ => 1, asPDF := true, save := fun _ => [9, 9] }

/-- A password-protected document: only `"pw"` authenticates. -/
def docLocked : Doc :=
  { needsPassword := true, auth := fun p => if p = "pw" then 1 else 0,
    asPDF := true, save := fun _ => [4, 2] }

/-- A document that opens but whose `asPDF()` returns null. -/
def docNoPdf : Doc :=
  { needsPassword := false, auth := fun _ => 0, asPDF := false, save := fun _ => [] }

def libPlain : Lib := { openDocument := fun _ => Except.ok docPlain }

def libLocked : Lib := { openDocument := fun _ => Except.ok docLocked }

def libNoPdf : Lib := { openDocument := fun _ => Except.ok docNoPdf }

/-- A library whose `openDocument` throws a non-`Error` value. -/
def libThrow : Lib := { openDocument := fun _ => Except.error Thrown.nonError }

/-! ## Map lemmas -/

theorem mapGet_mapDelete_self (m : List (Nat × Nat)) (k : Nat) :
    mapGet (mapDelete m k) k = none := by
  induction m with
  | nil => rfl
  | cons p rest ih =>
    by_cases h : p.1 = k
    · simpa [mapDelete, h] using ih
    · simp [mapDelete, mapGet, h, ih]

theorem mapGet_eq_none_of_forall_ne (m : List (Nat × Nat)) (k : Nat)
    (h : ∀ p ∈ m, p.1 ≠ k) : mapGet m k = none := by
  induction m with
  | nil => rfl
  | cons p rest ih =>
    have hp : p.1 ≠ k := h p (List.mem_cons_self p rest)
    simp only [mapGet]
    rw [if_neg hp]
    exact ih fun q hq => h q (List.mem_cons_of_mem p hq)

theorem mapSet_eq_append_of_forall_ne (m : List (Nat × Nat)) (k v : Nat)
    (h : ∀ p ∈ m, p.1 ≠ k) : mapSet m k v = m ++ [(k, v)] := by
  induction m with
  | nil => rfl
  | cons p rest ih =>
    have hp : p.1 ≠ k := h p (List.mem_cons_self p rest)
    simp only [mapSet]
    rw [if_neg hp, ih fun q hq => h q (List.mem_cons_of_mem p hq)]
    simp

theorem mapDelete_sublist (m : List (Nat × Nat)) (k : Nat) :
    (mapDelete m k).Sublist m := by
  induction m with
  | nil => simp [mapDelete]
  | cons p rest ih =>
    by_cases h : p.1 = k
    · simp only [mapDelete, if_pos h]
      exact ih.cons p
    · simp only [mapDelete, if_neg h]
      exact ih.cons₂ p

theorem sendMessage_pending (s : HookState) (m : OutMsg) :
    (sendMessage s m).pending = s.pending := by
  unfold sendMessage; split <;> rfl

theorem sendMessage_nextId (s : HookState) (m : OutMsg) :
    (sendMessage s m).nextId = s.nextId := by
  unfold sendMessage; split <;> rfl

theorem sendAll_not_ready (ms : List OutMsg) (s : HookState) (h : s.ready = false) :
    sendAll s ms = { s with queue := s.queue ++ ms } := by
  induction ms generalizing s with
  | nil => simp [sendAll]
  | cons m rest ih =>
    have h1 : sendMessage s m = { s with queue := s.queue ++ [m] } := by
      simp [sendMessage, h]
    have h2 : sendAll s (m :: rest) = sendAll (sendMessage s m) rest := by
      simp [sendAll, List.foldl_cons]
    rw [h2, h1, ih _ (by exact h)]
    simp

/-! ## Claim theorems: the hook -/

/-- C1: the hook's id-based promise registry. A non-ready reply resolves
exactly the resolver registered under its id, removing it from the registry
first; a reply whose id is unregistered changes nothing; replaying the same
reply (an already-consumed id) is a no-op. -/
theorem hook_registry_resolves_by_id (s : HookState) (m : InMsg) (h : m.type ≠ "ready") :
    handleMessage s m =
      (match mapGet s.pending m.id with
       | none => s
       | some tag =>
         { s with pending := mapDelete s.pending m.id,
                  resolved := s.resolved ++ [(tag, mkResult m.type m.data m.error)] }) ∧
    handleMessage (handleMessage s m) m = handleMessage s m := by
  have hmain : handleMessage s m =
      (match mapGet s.pending m.id with
       | none => s
       | some tag =>
         { s with pending := mapDelete s.pending m.id,
                  resolved := s.resolved ++ [(tag, mkResult m.type m.data m.error)] }) := by
    unfold handleMessage
    rw [if_neg h]
  refine ⟨hmain, ?_⟩
  cases hg : mapGet s.pending m.id with
  | none =>
    have h1 : handleMessage s m = s := by rw [hmain, hg]
    rw [h1]; rw [h1]
  | some tag =>
    have h1 : handleMessage s m =
        { s with pending := mapDelete s.pending m.id,
                 resolved := s.resolved ++ [(tag, mkResult m.type m.data m.error)] } := by
      rw [hmain, hg]
    rw [h1]
    unfold handleMessage
    rw [if_neg h]
    simp [mapGet_mapDelete_self]

def stateW1 : HookState :=
  { pending := [(0, 100)], ready := true, queue := [], nextId := 1,
    posted := [], resolved := [] }

def msgW1 : InMsg := { type := "success", id := 0, data := [7], error := "" }

/-- Witness for C1 at a concrete state with one pending resolver. -/
theorem hook_registry_resolves_by_id_witness :
    msgW1.type ≠ "ready" ∧
    (handleMessage stateW1 msgW1 =
      (match mapGet stateW1.pending msgW1.id with
       | none => stateW1
       | some tag =>
         { stateW1 with pending := mapDelete stateW1.pending msgW1.id,
                        resolved := stateW1.resolved ++
                          [(tag, mkResult msgW1.type msgW1.data msgW1.error)] }) ∧
     handleMessage (handleMessage stateW1 msgW1) msgW1 = handleMessage stateW1 msgW1) :=
  ⟨by decide, hook_registry_resolves_by_id stateW1 msgW1 (by decide)⟩

/-- C2: the ready/queue-flush handshake. `sendMessage` posts immediately when
ready and queues otherwise; the "ready" message flips the flag, posts the
whole queue in FIFO order and empties it; a batch of requests sent before
ready is posted in exactly the order it was sent. -/
theorem hook_ready_queue_flush (s : HookState) (m : OutMsg) (ms : List OutMsg)
    (i : Nat) (d : List Nat) (e : String) :
    sendMessage s m = (if s.ready then { s with posted := s.posted ++ [m] }
                       else { s with queue := s.queue ++ [m] }) ∧
    handleMessage s { type := "ready", id := i, data := d, error := e } =
      { s with ready := true, posted := s.posted ++ s.queue, queue := [] } ∧
    handleMessage (sendAll { s with ready := false } ms)
        { type := "ready", id := i, data := d, error := e } =
      { s with ready := true, posted := s.posted ++ (s.queue ++ ms), queue := [] } := by
  refine ⟨rfl, by simp [handleMessage], ?_⟩
  rw [sendAll_not_ready ms { s with ready := false } rfl]
  simp [handleMessage]

/-- C9: `worker.onerror` resolves every pending promise with
`success: false`, `error: "Worker encountered an error"`, in registry order,
and empties the pending map; queue and posted log are untouched. -/
theorem hook_worker_error_resolves_all (s : HookState) :
    (handleError s).pending = [] ∧
    (handleError s).resolved = s.resolved ++ s.pending.map (fun p =>
      (p.2, { success := false, needsPassword := none, data := none,
              error := some "Worker encountered an error" })) ∧
    (handleError s).posted = s.posted ∧
    (handleError s).queue = s.queue :=
  ⟨rfl, rfl, rfl, rfl⟩

/-- C6: the hook transforms nothing. A call posts (or queues) a message whose
`data` field is exactly the file's bytes, and a "success" reply resolves with
`data` exactly the reply's bytes. -/
theorem hook_no_transform (s : HookState) (tag : Nat) (bytes : List Nat) (pw : String)
    (d : List Nat) (e : String) :
    ((autoUnlockCall s tag bytes).posted
        = s.posted ++ (if s.ready then
            [{ type := "auto-unlock", id := s.nextId, data := bytes, password := none }]
          else []) ∧
     (autoUnlockCall s tag bytes).queue
        = s.queue ++ (if s.ready then [] else
            [{ type := "auto-unlock", id := s.nextId, data := bytes, password := none }])) ∧
    ((decryptCall s tag bytes pw).posted
        = s.posted ++ (if s.ready then
            [{ type := "decrypt", id := s.nextId, data := bytes, password := some pw }]
          else []) ∧
     (decryptCall s tag bytes pw).queue
        = s.queue ++ (if s.ready then [] else
            [{ type := "decrypt", id := s.nextId, data := bytes, password := some pw }])) ∧
    mkResult "success" d e
      = { success := true, needsPassword := none, data := some d, error := none } := by
  refine ⟨⟨?_, ?_⟩, ⟨?_, ?_⟩, by simp [mkResult]⟩ <;>
    · simp only [autoUnlockCall, decryptCall, sendMessage]
      by_cases hr : s.ready <;> simp [hr]

theorem pendingInv_sendMessage (s : HookState) (m : OutMsg) (h : PendingInv s) :
    PendingInv (sendMessage s m) := by
  unfold PendingInv at h ⊢
  rw [sendMessage_pending, sendMessage_nextId]
  exact h

theorem pendingInv_register (s : HookState) (tag : Nat) (h : PendingInv s) :
    PendingInv { s with nextId := s.nextId + 1,
                        pending := mapSet s.pending s.nextId tag } := by
  have hne : ∀ p ∈ s.pending, p.1 ≠ s.nextId := fun p hp =>
    Nat.ne_of_lt (h.1 p hp)
  constructor
  · intro p hp
    rw [mapSet_eq_append_of_forall_ne s.pending s.nextId tag hne] at hp
    rcases List.mem_append.mp hp with hp | hp
    · exact Nat.lt_succ_of_lt (h.1 p hp)
    · simp at hp
      simp [hp]
  · rw [mapSet_eq_append_of_forall_ne s.pending s.nextId tag hne]
    rw [List.map_append]
    rw [List.nodup_append]
    refine ⟨h.2, by simp, ?_⟩
    intro a ha hb
    simp at hb
    rcases List.mem_map.mp ha with ⟨p, hp, hfst⟩
    exact hne p hp (hfst.trans hb)

theorem pendingInv_step (s : HookState) (e : HookEvent) (h : PendingInv s) :
    PendingInv (step s e) := by
  cases e with
  | callAutoUnlock tag bytes =>
    exact pendingInv_sendMessage _ _ (pendingInv_register s tag h)
  | callDecrypt tag bytes pw =>
    exact pendingInv_sendMessage _ _ (pendingInv_register s tag h)
  | recv m =>
    show PendingInv (handleMessage s m)
    unfold handleMessage
    by_cases hr : m.type = "ready"
    · rw [if_pos hr]
      exact h
    · rw [if_neg hr]
      cases hg : mapGet s.pending m.id with
      | none => exact h
      | some tag =>
        have hsub := mapDelete_sublist s.pending m.id
        constructor
        · intro p hp
          exact h.1 p (hsub.subset hp)
        · exact h.2.sublist (hsub.map Prod.fst)
  | workerErr =>
    constructor
    · intro p hp
      simp [step, handleError] at hp
    · simp [step, handleError]

theorem pendingInv_foldl (es : List HookEvent) (s : HookState) (h : PendingInv s) :
    PendingInv (es.foldl step s) := by
  induction es generalizing s with
  | nil => exact h
  | cons e rest ih => exact ih _ (pendingInv_step s e h)

theorem pendingInv_init : PendingInv initState := by
  constructor
  · intro p hp
    simp [initState] at hp
  · simp [initState]

/-- C8: request ids come from one post-incremented counter. Under the
invariant that every pending id is below the counter and pending ids are
distinct, the freshly allocated id is unregistered, each call bumps the
counter by one and appends a new entry (never overwriting a live resolver),
the invariant survives every event, and it holds along any run. -/
theorem hook_ids_unique_fresh (s : HookState) (e : HookEvent) (tag : Nat)
    (bytes : List Nat) (pw : String) (es : List HookEvent) (h : PendingInv s) :
    mapGet s.pending s.nextId = none ∧
    (autoUnlockCall s tag bytes).nextId = s.nextId + 1 ∧
    (decryptCall s tag bytes pw).nextId = s.nextId + 1 ∧
    (autoUnlockCall s tag bytes).pending = s.pending ++ [(s.nextId, tag)] ∧
    (decryptCall s tag bytes pw).pending = s.pending ++ [(s.nextId, tag)] ∧
    PendingInv (step s e) ∧
    PendingInv (runEvents es) := by
  have hne : ∀ p ∈ s.pending, p.1 ≠ s.nextId := fun p hp =>
    Nat.ne_of_lt (h.1 p hp)
  refine ⟨mapGet_eq_none_of_forall_ne s.pending s.nextId hne, ?_, ?_, ?_, ?_,
    pendingInv_step s e h, pendingInv_foldl es initState pendingInv_init⟩
  · rw [show autoUnlockCall s tag bytes = sendMessage
      { s with nextId := s.nextId + 1, pending := mapSet s.pending s.nextId tag }
      { type := "auto-unlock", id := s.nextId, data := bytes, password := none } from rfl]
    rw [sendMessage_nextId]
  · rw [show decryptCall s tag bytes pw = sendMessage
      { s with nextId := s.nextId + 1, pending := mapSet s.pending s.nextId tag }
      { type := "decrypt", id := s.nextId, data := bytes, password := some pw } from rfl]
    rw [sendMessage_nextId]
  · rw [show autoUnlockCall s tag bytes = sendMessage
      { s with nextId := s.nextId + 1, pending := mapSet s.pending s.nextId tag }
      { type := "auto-unlock", id := s.nextId, data := bytes, password := none } from rfl]
    rw [sendMessage_pending]
    exact mapSet_eq_append_of_forall_ne s.pending s.nextId tag hne
  · rw [show decryptCall s tag bytes pw = sendMessage
      { s with nextId := s.nextId + 1, pending := mapSet s.pending s.nextId tag }
      { type := "decrypt", id := s.nextId, data := bytes, password := some pw } from rfl]
    rw [sendMessage_pending]
    exact mapSet_eq_append_of_forall_ne s.pending s.nextId tag hne

/-- Witness for C8 at the state `stateW1` holding one pending resolver. -/
theorem hook_ids_unique_fresh_witness :
    PendingInv stateW1 ∧
    (mapGet stateW1.pending stateW1.nextId = none ∧
     (autoUnlockCall stateW1 5 [1, 2]).nextId = stateW1.nextId + 1 ∧
     (decryptCall stateW1 5 [1, 2] "p").nextId = stateW1.nextId + 1 ∧
     (autoUnlockCall stateW1 5 [1, 2]).pending
        = stateW1.pending ++ [(stateW1.nextId, 5)] ∧
     (decryptCall stateW1 5 [1, 2] "p").pending
        = stateW1.pending ++ [(stateW1.nextId, 5)] ∧
     PendingInv (step stateW1 HookEvent.workerErr) ∧
     PendingInv (runEvents [HookEvent.callAutoUnlock 0 [3]])) := by
  have hinv : PendingInv stateW1 := by
    constructor
    · intro p hp
      simp [stateW1] at hp
      simp [hp, stateW1]
    · simp [stateW1]
  exact ⟨hinv, hook_ids_unique_fresh stateW1 HookEvent.workerErr 5 [1, 2] "p"
    [HookEvent.callAutoUnlock 0 [3]] hinv⟩

/-! ## Worker computation lemmas -/

theorem decryptPDF_eq (lib : Lib) (bytes : List Nat) (pw : String) (doc : Doc)
    (hopen : lib.openDocument bytes = Except.ok doc) :
    decryptPDF lib bytes pw =
      (if doc.needsPassword = true ∧ doc.auth pw = 0 then
        Except.error (Thrown.err "Incorrect password")
      else if doc.asPDF then
        Except.ok (doc.save "decrypt,garbage=deduplicate,compress")
      else Except.error (Thrown.err "Not a valid PDF document")) := by
  unfold decryptPDF
  rw [hopen]
  by_cases h1 : doc.needsPassword
  · by_cases h2 : doc.auth pw = 0
    · simp [h1, h2]
    · by_cases h3 : doc.asPDF <;> simp [h1, h2, h3]
  · by_cases h3 : doc.asPDF <;> simp [h1, h3]

theorem workerHandle_decrypt (lib : Lib) (i : Nat) (d : List Nat) (pw : String) :
    workerHandle lib (WMsg.decrypt i d pw) =
      (match decryptPDF lib d pw with
       | .ok r => [successReply i r]
       | .error t => [errorReply i t.message]) := rfl

theorem workerHandle_autoUnlock (lib : Lib) (i : Nat) (d : List Nat) :
    workerHandle lib (WMsg.autoUnlock i d) =
      (match tryAutoUnlock lib d with
       | .ok (some r) => [successReply i r]
       | .ok none => [needsPasswordReply i]
       | .error t => [errorReply i t.message]) := rfl

theorem tryAutoUnlock_eq (lib : Lib) (bytes : List Nat) (doc : Doc)
    (hopen : lib.openDocument bytes = Except.ok doc) :
    tryAutoUnlock lib bytes =
      (if doc.needsPassword = false ∨ 0 < doc.auth "" then
        (if doc.asPDF then
          Except.ok (some (doc.save "decrypt,garbage=deduplicate,compress"))
        else Except.ok none)
      else Except.ok none) := by
  unfold tryAutoUnlock
  rw [hopen]
  by_cases h1 : doc.needsPassword
  · by_cases h2 : 0 < doc.auth ""
    · by_cases h3 : doc.asPDF <;> simp [h1, h2, h3]
    · simp [h1, h2]
  · by_cases h3 : doc.asPDF <;> simp [h1, h3]

/-! ## Claim theorems: the worker -/

/-- C4: a "decrypt" request yields the error reply "Incorrect password" iff
the document needs a password and authenticating the supplied password
returns 0; otherwise, when the document converts to a PDF document, it
yields a success reply carrying the bytes saved with
"decrypt,garbage=deduplicate,compress". -/
theorem worker_decrypt_semantics (lib : Lib) (i : Nat) (bytes : List Nat) (pw : String)
    (doc : Doc) (hopen : lib.openDocument bytes = Except.ok doc) :
    workerHandle lib (WMsg.decrypt i bytes pw) =
      [ if doc.needsPassword = true ∧ doc.auth pw = 0 then
          errorReply i "Incorrect password"
        else if doc.asPDF then
          successReply i (doc.save "decrypt,garbage=deduplicate,compress")
        else errorReply i "Not a valid PDF document" ] ∧
    (workerHandle lib (WMsg.decrypt i bytes pw) = [errorReply i "Incorrect password"]
      ↔ (doc.needsPassword = true ∧ doc.auth pw = 0)) := by
  have hcalc : workerHandle lib (WMsg.decrypt i bytes pw) =
      [ if doc.needsPassword = true ∧ doc.auth pw = 0 then
          errorReply i "Incorrect password"
        else if doc.asPDF then
          successReply i (doc.save "decrypt,garbage=deduplicate,compress")
        else errorReply i "Not a valid PDF document" ] := by
    rw [workerHandle_decrypt, decryptPDF_eq lib bytes pw doc hopen]
    by_cases h1 : doc.needsPassword = true ∧ doc.auth pw = 0
    · simp [h1, Thrown.message]
    · by_cases h3 : doc.asPDF <;> simp [h1, h3, Thrown.message]
  refine ⟨hcalc, ?_⟩
  rw [hcalc]
  constructor
  · intro heq
    by_cases h1 : doc.needsPassword = true ∧ doc.auth pw = 0
    · exact h1
    · exfalso
      rw [if_neg h1] at heq
      by_cases h3 : doc.asPDF
      · rw [if_pos h3] at heq
        simp [successReply, errorReply] at heq
      · rw [if_neg h3] at heq
        simp [errorReply] at heq
  · intro h1
    rw [if_pos h1]

/-- Witness for C4: the password-protected document `docLocked` and a wrong
password. -/
theorem worker_decrypt_semantics_witness :
    libLocked.openDocument [1] = Except.ok docLocked ∧
    (workerHandle libLocked (WMsg.decrypt 2 [1] "bad") =
      [ if docLocked.needsPassword = true ∧ docLocked.auth "bad" = 0 then
          errorReply 2 "Incorrect password"
        else if docLocked.asPDF then
          successReply 2 (docLocked.save "decrypt,garbage=deduplicate,compress")
        else errorReply 2 "Not a valid PDF document" ] ∧
     (workerHandle libLocked (WMsg.decrypt 2 [1] "bad")
         = [errorReply 2 "Incorrect password"]
       ↔ (docLocked.needsPassword = true ∧ docLocked.auth "bad" = 0))) :=
  ⟨rfl, worker_decrypt_semantics libLocked 2 [1] "bad" docLocked rfl⟩

/-- C5: an "auto-unlock" request on a document that converts to a PDF
document succeeds (with the decrypted bytes, no password input) iff the
document needs no password or the empty password authenticates positively;
otherwise it is answered "needs-password". -/
theorem worker_auto_unlock_semantics (lib : Lib) (i : Nat) (bytes : List Nat)
    (doc : Doc) (hopen : lib.openDocument bytes = Except.ok doc)
    (hpdf : doc.asPDF = true) :
    (workerHandle lib (WMsg.autoUnlock i bytes)
        = [successReply i (doc.save "decrypt,garbage=deduplicate,compress")]
      ↔ (doc.needsPassword = false ∨ 0 < doc.auth "")) ∧
    (workerHandle lib (WMsg.autoUnlock i bytes) = [needsPasswordReply i]
      ↔ ¬(doc.needsPassword = false ∨ 0 < doc.auth "")) := by
  have hcalc : workerHandle lib (WMsg.autoUnlock i bytes) =
      (if doc.needsPassword = false ∨ 0 < doc.auth "" then
        [successReply i (doc.save "decrypt,garbage=deduplicate,compress")]
      else [needsPasswordReply i]) := by
    rw [workerHandle_autoUnlock, tryAutoUnlock_eq lib bytes doc hopen]
    by_cases hc : doc.needsPassword = false ∨ 0 < doc.auth "" <;> simp [hc, hpdf]
  rw [hcalc]
  by_cases hc : doc.needsPassword = false ∨ 0 < doc.auth ""
  · rw [if_pos hc]
    constructor
    · constructor
      · intro _; exact hc
      · intro _; rfl
    · constructor
      · intro heq
        simp [successReply, needsPasswordReply] at heq
      · intro hn; exact absurd hc hn
  · rw [if_neg hc]
    constructor
    · constructor
      · intro heq
        simp [successReply, needsPasswordReply] at heq
      · intro h; exact absurd h hc
    · constructor
      · intro _; exact hc
      · intro _; rfl

/-- Witness for C5: the unencrypted document `docPlain`. -/
theorem worker_auto_unlock_semantics_witness :
    libPlain.openDocument [1] = Except.ok docPlain ∧ docPlain.asPDF = true ∧
    ((workerHandle libPlain (WMsg.autoUnlock 4 [1])
        = [successReply 4 (docPlain.save "decrypt,garbage=deduplicate,compress")]
      ↔ (docPlain.needsPassword = false ∨ 0 < docPlain.auth "")) ∧
     (workerHandle libPlain (WMsg.autoUnlock 4 [1]) = [needsPasswordReply 4]
      ↔ ¬(docPlain.needsPassword = false ∨ 0 < docPlain.auth ""))) :=
  ⟨rfl, rfl, worker_auto_unlock_semantics libPlain 4 [1] docPlain rfl rfl⟩

/-- C10: for a document that opens but whose `asPDF()` is null, an
"auto-unlock" request is answered "needs-password", while a "decrypt"
request that gets past the password check on the same document is answered
with the error "Not a valid PDF document". -/
theorem worker_aspdf_null_divergence (lib : Lib) (i : Nat) (bytes : List Nat)
    (pw : String) (doc : Doc) (hopen : lib.openDocument bytes = Except.ok doc)
    (hpdf : doc.asPDF = false)
    (hauth : doc.needsPassword = false ∨ doc.auth pw ≠ 0) :
    workerHandle lib (WMsg.autoUnlock i bytes) = [needsPasswordReply i] ∧
    workerHandle lib (WMsg.decrypt i bytes pw)
      = [errorReply i "Not a valid PDF document"] := by
  constructor
  · rw [workerHandle_autoUnlock, tryAutoUnlock_eq lib bytes doc hopen]
    by_cases hc : doc.needsPassword = false ∨ 0 < doc.auth "" <;> simp [hc, hpdf]
  · rw [workerHandle_decrypt, decryptPDF_eq lib bytes pw doc hopen]
    have hnc : ¬(doc.needsPassword = true ∧ doc.auth pw = 0) := by
      rcases hauth with h | h
      · intro hcon
        rw [h] at hcon
        exact Bool.false_ne_true hcon.1
      · intro hcon
        exact h hcon.2
    simp [hnc, hpdf, Thrown.message]

/-- Witness for C10: the document `docNoPdf` (opens, `asPDF()` null). -/
theorem worker_aspdf_null_divergence_witness :
    libNoPdf.openDocument [1] = Except.ok docNoPdf ∧ docNoPdf.asPDF = false ∧
    (docNoPdf.needsPassword = false ∨ docNoPdf.auth "x" ≠ 0) ∧
    (workerHandle libNoPdf (WMsg.autoUnlock 6 [1]) = [needsPasswordReply 6] ∧
     workerHandle libNoPdf (WMsg.decrypt 6 [1] "x")
       = [errorReply 6 "Not a valid PDF document"]) :=
  ⟨rfl, rfl, Or.inl rfl,
    worker_aspdf_null_divergence libNoPdf 6 [1] "x" docNoPdf rfl rfl (Or.inl rfl)⟩

/-- C3: every "decrypt" or "auto-unlock" request gets exactly one reply,
carrying the same id, with type "success", "needs-password" or "error";
"needs-password" never answers a "decrypt" request; and when the processing
function throws, the single reply is an error reply carrying the thrown
value's message ("Unknown error" for a non-Error throw). -/
theorem worker_single_reply (lib : Lib) (m : WMsg) :
    ∃ r, workerHandle lib m = [r] ∧ r.id = m.msgId ∧
      (r.type = "success" ∨ r.type = "needs-password" ∨ r.type = "error") ∧
      (∀ i d pw, m = WMsg.decrypt i d pw → r.type ≠ "needs-password" ∧
        ∀ t, decryptPDF lib d pw = Except.error t → r = errorReply i t.message) ∧
      (∀ i d, m = WMsg.autoUnlock i d →
        ∀ t, tryAutoUnlock lib d = Except.error t → r = errorReply i t.message) := by
  cases m with
  | decrypt i d pw =>
    cases hres : decryptPDF lib d pw with
    | ok r =>
      refine ⟨successReply i r, by rw [workerHandle_decrypt, hres], rfl,
        Or.inl rfl, ?_, ?_⟩
      · intro i' d' pw' hm
        cases hm
        refine ⟨by simp [successReply], ?_⟩
        intro t ht
        rw [hres] at ht
        exact absurd ht (by simp)
      · intro i' d' hm
        cases hm
    | error t0 =>
      refine ⟨errorReply i t0.message, by rw [workerHandle_decrypt, hres], rfl,
        Or.inr (Or.inr rfl), ?_, ?_⟩
      · intro i' d' pw' hm
        cases hm
        refine ⟨by simp [errorReply], ?_⟩
        intro t ht
        rw [hres] at ht
        injection ht with h
        rw [h]
      · intro i' d' hm
        cases hm
  | autoUnlock i d =>
    cases hres : tryAutoUnlock lib d with
    | ok o =>
      cases o with
      | some r =>
        refine ⟨successReply i r, by rw [workerHandle_autoUnlock, hres], rfl,
          Or.inl rfl, ?_, ?_⟩
        · intro i' d' pw' hm
          cases hm
        · intro i' d' hm
          cases hm
          intro t ht
          rw [hres] at ht
          exact absurd ht (by simp)
      | none =>
        refine ⟨needsPasswordReply i, by rw [workerHandle_autoUnlock, hres], rfl,
          Or.inr (Or.inl rfl), ?_, ?_⟩
        · intro i' d' pw' hm
          cases hm
        · intro i' d' hm
          cases hm
          intro t ht
          rw [hres] at ht
          exact absurd ht (by simp)
    | error t0 =>
      refine ⟨errorReply i t0.message, by rw [workerHandle_autoUnlock, hres], rfl,
        Or.inr (Or.inr rfl), ?_, ?_⟩
      · intro i' d' pw' hm
        cases hm
      · intro i' d' hm
        cases hm
        intro t ht
        rw [hres] at ht
        injection ht with h
        rw [h]

/-- Witness for C3: a library whose `openDocument` throws a non-`Error`
value, on a "decrypt" request. -/
theorem worker_single_reply_witness :
    ∃ r, workerHandle libThrow (WMsg.decrypt 7 [1] "x") = [r] ∧
      r.id = (WMsg.decrypt 7 [1] "x").msgId ∧
      (r.type = "success" ∨ r.type = "needs-password" ∨ r.type = "error") ∧
      (∀ i d pw, WMsg.decrypt 7 [1] "x" = WMsg.decrypt i d pw →
        r.type ≠ "needs-password" ∧
        ∀ t, decryptPDF libThrow d pw = Except.error t → r = errorReply i t.message) ∧
      (∀ i d, WMsg.decrypt 7 [1] "x" = WMsg.autoUnlock i d →
        ∀ t, tryAutoUnlock libThrow d = Except.error t → r = errorReply i t.message) :=
  worker_single_reply libThrow (WMsg.decrypt 7 [1] "x")
